import Mathlib

/-!
Shallow embedding of the warbler_grass render crate: the texture packer,
the per-frame preparation systems over the grass resource cache, the
deferred-load queues for height textures and height maps, and the draw
registration pass.  GPU allocation is modelled by a counter; every
buffer, texture or bind-group creation draws a fresh identifier, so two
creations never return the same handle.
-/

namespace Warbler

/- Entity identifiers (the stable chunk identity), asset handles and
GPU object identifiers are all modelled as natural numbers. -/

/-- The GPU allocator: every create call returns a fresh identifier, the
current counter value, and advances the counter. -/
structure Gpu where
  next : Nat
deriving DecidableEq

/-- A resource placed in one bind-group entry. -/
inductive Resource
  | buf (id : Nat)
  | tex (viewId : Nat)
deriving DecidableEq

/-- The binding kind a layout entry declares or a descriptor entry supplies. -/
inductive BindingKind
  | buffer
  | textureView
deriving DecidableEq

/-- The kind of a bound resource. -/
def Resource.kind : Resource → BindingKind
  | .buf _ => .buffer
  | .tex _ => .textureView

/-- One (binding index, kind) pair of a bind-group layout. -/
structure BindingEntry where
  binding : Nat
  kind : BindingKind
deriving DecidableEq

/-- A created bind group: its GPU identifier and its entries, each a
binding index paired with the bound resource. -/
structure BindGroup where
  gid : Nat
  entries : List (Nat × Resource)
deriving DecidableEq

/-- The binding set a bind group supplies, comparable against a layout. -/
def BindGroup.kinds (bg : BindGroup) : List BindingEntry :=
  bg.entries.map (fun p => ⟨p.1, p.2.kind⟩)

/-- One entry of the GrassCache (render/cache.rs), keyed by entity.
Field names follow the Rust struct fields written by the preparation
systems. -/
structure CacheEntry where
  explicit_count : Nat := 0
  explicit_xz_buffer : Option Nat := none
  explicit_y_buffer : Option BindGroup := none
  height_buffer : Option BindGroup := none
  blade_height_texture : Option BindGroup := none
  height_map : Option BindGroup := none
  grass_buffer : Option Nat := none
  uniform_bindgroup : Option BindGroup := none
deriving DecidableEq

/-- The empty cache entry, as registered before any preparation ran. -/
def CacheEntry.empty : CacheEntry := {}

/-- GrassCache.get: the first entry registered under the given entity. -/
def cacheGet : List (Nat × CacheEntry) → Nat → Option CacheEntry
  | [], _ => none
  | p :: rest, e => if p.1 = e then some p.2 else cacheGet rest e

/-- GrassCache.get_mut followed by a write: replace the entry under the
given entity, leaving the cache untouched when the key is absent. -/
def cacheSet (c : List (Nat × CacheEntry)) (e : Nat) (v : CacheEntry) :
    List (Nat × CacheEntry) :=
  c.map (fun p => if p.1 = e then (e, v) else p)

theorem cacheGet_cacheSet_self {c : List (Nat × CacheEntry)} {e : Nat}
    {v w : CacheEntry} (h : cacheGet c e = some w) :
    cacheGet (cacheSet c e v) e = some v := by
  induction c with
  | nil => simp [cacheGet] at h
  | cons p rest ih =>
    by_cases hp : p.1 = e
    · simp [cacheGet, cacheSet, hp]
    · simp only [cacheGet, cacheSet, hp, if_false, List.map_cons] at h ⊢
      simpa [cacheSet, hp] using ih h

theorem cacheGet_cacheSet_ne {c : List (Nat × CacheEntry)} {e e2 : Nat}
    {v : CacheEntry} (h : e2 ≠ e) :
    cacheGet (cacheSet c e v) e2 = cacheGet c e2 := by
  induction c with
  | nil => simp [cacheGet, cacheSet]
  | cons p rest ih =>
    by_cases hp : p.1 = e
    · have h1 : ¬ (e = e2) := fun hh => h hh.symm
      have h2 : ¬ (p.1 = e2) := by rw [hp]; exact h1
      have ih2 := ih
      simp only [cacheSet] at ih2
      simp [cacheGet, cacheSet, if_pos hp, h1, h2, ih2]
    · have ih2 := ih
      simp only [cacheSet] at ih2
      by_cases hp2 : p.1 = e2
      · simp [cacheGet, cacheSet, hp, hp2, h]
      · simp [cacheGet, cacheSet, hp, hp2, h, ih2]

theorem cacheSet_of_get_none {c : List (Nat × CacheEntry)} {e : Nat}
    {v : CacheEntry} (h : cacheGet c e = none) : cacheSet c e v = c := by
  induction c with
  | nil => rfl
  | cons p rest ih =>
    simp only [cacheGet] at h
    by_cases hp : p.1 = e
    · simp [hp] at h
    · simp only [hp, if_false] at h
      simp only [cacheSet, List.map_cons, if_neg hp]
      rw [show List.map (fun p => if p.1 = e then (e, v) else p) rest
            = cacheSet rest e v from rfl, ih h]

theorem cacheGet_cacheSet_isSome {c : List (Nat × CacheEntry)}
    {e e2 : Nat} {v : CacheEntry} :
    (cacheGet (cacheSet c e v) e2).isSome = (cacheGet c e2).isSome := by
  by_cases h : e2 = e
  · subst h
    cases hc : cacheGet c e2 with
    | none => simp [cacheSet_of_get_none hc, hc]
    | some w => simp [cacheGet_cacheSet_self hc, hc]
  · simp [cacheGet_cacheSet_ne h]

/-! ## Texture packer (prepare.rs, prepare_texture_from_data) -/

/-- One packed square texture together with its upload layout and the
parameters of the view created from it. -/
structure PackedTexture (α : Type) where
  side : Nat
  texels : List α
  bytesPerRow : Nat
  mipLevelCount : Nat
  sampleCount : Nat
  depthOrArrayLayers : Nat
  viewMipLevelCount : Nat
  viewArrayLayerCount : Nat
  view2d : Bool

/-- Fuel-stepped floor of the base-2 logarithm: one halving per unit of
fuel, so the kernel can evaluate it on literals. -/
def log2floorAux : Nat → Nat → Nat
  | 0, _ => 0
  | fuel + 1, n => if n < 2 then 0 else log2floorAux fuel (n / 2) + 1

/-- Floor of the base-2 logarithm, kernel-computable; proven equal to
Nat.log2 below (the fuel n bounds the number of halvings). -/
def log2floor (n : Nat) : Nat := log2floorAux n n

theorem log2floorAux_eq : ∀ (fuel n : Nat), n ≤ fuel →
    log2floorAux fuel n = Nat.log2 n := by
  intro fuel
  induction fuel with
  | zero =>
    intro n hn
    have h0 : n = 0 := by omega
    subst h0
    unfold Nat.log2
    rw [if_neg (by omega)]
    rfl
  | succ fuel ih =>
    intro n hn
    by_cases h2 : n < 2
    · simp only [log2floorAux, if_pos h2]
      unfold Nat.log2
      rw [if_neg (by omega)]
    · simp only [log2floorAux, if_neg h2]
      rw [ih (n / 2) (by omega)]
      have hstep : Nat.log2 n = Nat.log2 (n / 2) + 1 := by
        conv_lhs => unfold Nat.log2
        rw [if_pos (by omega : n ≥ 2)]
      rw [hstep]

theorem log2floor_eq (n : Nat) : log2floor n = Nat.log2 n :=
  log2floorAux_eq n n (Nat.le_refl n)

/-- Fuel-stepped Newton iteration for the integer square root,
mirroring the standard Nat.sqrt.iter; the fuel makes it
kernel-computable on literals. -/
def sqrtIter : Nat → Nat → Nat → Nat
  | 0, _, guess => guess
  | fuel + 1, n, guess =>
    let next := (guess + n / guess) / 2
    if next < guess then sqrtIter fuel n next else guess

/-- Floor of the square root, kernel-computable; proven equal to
Nat.sqrt below. -/
def sqrtFloor (n : Nat) : Nat := if n ≤ 1 then n else sqrtIter n n (n / 2)

theorem sqrtIter_eq : ∀ (fuel n guess : Nat), guess ≤ fuel →
    sqrtIter fuel n guess = Nat.sqrt.iter n guess := by
  intro fuel
  induction fuel with
  | zero =>
    intro n guess hg
    have h0 : guess = 0 := by omega
    subst h0
    unfold Nat.sqrt.iter
    simp [sqrtIter]
  | succ fuel ih =>
    intro n guess hg
    unfold Nat.sqrt.iter
    simp only [sqrtIter]
    by_cases hlt : (guess + n / guess) / 2 < guess
    · rw [if_pos hlt, dif_pos hlt]
      exact ih n _ (by omega)
    · rw [if_neg hlt, dif_neg hlt]

theorem sqrtFloor_eq (n : Nat) : sqrtFloor n = Nat.sqrt n := by
  unfold sqrtFloor Nat.sqrt
  by_cases h : n ≤ 1
  · rw [if_pos h, if_pos h]
  · rw [if_neg h, if_neg h]
    exact sqrtIter_eq n n (n / 2) (by omega)

/-- Round a natural number to the nearest binary32 value (round to
nearest, ties to even), as the cast of the sample count to f32 does.
A natural below 2^24 is exact; above, it is rounded to the nearest
multiple of the unit in the last place 2^(log2 n - 23), a tie going to
the even mantissa digit.  The result is again a natural number. -/
def roundF32 (n : Nat) : Nat :=
  if n < 2 ^ 24 then n
  else
    let u := 2 ^ (log2floor n - 23)
    let q := n / u
    let r := n % u
    if 2 * r < u then q * u
    else if u < 2 * r then (q + 1) * u
    else if q % 2 = 0 then q * u else (q + 1) * u

/-- Truncation to an integer of the correctly rounded binary32 square
root of an exactly representable natural x, modelling the composite of
the f32 sqrt and the cast to u32.  With m the floor of the real square
root, the rounded root lies in [m, m + 1] and reaches m + 1 exactly
when the real root is above the rounding boundary (m + 1) - ulp/2;
scaling by S = 2^(24 - log2 m) turns that boundary test into the exact
integer comparison below, which can never tie while m < 2^24.  Inputs
with m at least 2^24 (that is, x at least 2^48, far beyond any sample
count a grass chunk can hold) keep the truncated exact root. -/
def f32SqrtTrunc (x : Nat) : Nat :=
  let m := sqrtFloor x
  if m = 0 then 0
  else if m < 2 ^ 24 then
    let S := 2 ^ (24 - log2floor m)
    if ((m + 1) * S - 1) ^ 2 < x * S ^ 2 then m + 1 else m
  else m

/-- The side computed by prepare_texture_from_data: the sample count is
cast to f32 (roundF32), its f32 square root is truncated to u32
(f32SqrtTrunc, saturating at the u32 maximum) and incremented with the
wrapping u32 addition. -/
def textureSide (len : Nat) : Nat :=
  (min (f32SqrtTrunc (roundF32 len)) (2 ^ 32 - 1) + 1) % 2 ^ 32

/-- prepare_texture_from_data: compute the side with the f32 pipeline
above, square it in u32 (wrapping), pad the sample list with default
values up to that square, upload with row stride elemSize * side in
u32, one mip level, and create a 2D view with one mip level and one
array layer.  The result is none when the wrapped square is smaller
than the sample count: there the usize subtraction computing the
padding underflows and the program aborts. -/
def prepare_texture_from_data (α : Type) (elemSize : Nat) (dflt : α)
    (data : List α) : Option (PackedTexture α) :=
  let sqrt := textureSide data.length
  if data.length ≤ (sqrt * sqrt) % 2 ^ 32 then
    some { side := sqrt
           texels := data ++ List.replicate ((sqrt * sqrt) % 2 ^ 32 - data.length) dflt
           bytesPerRow := (elemSize * sqrt) % 2 ^ 32
           mipLevelCount := 1
           sampleCount := 1
           depthOrArrayLayers := 1
           viewMipLevelCount := 1
           viewArrayLayerCount := 1
           view2d := true }
  else none

theorem sqrt_eq_exact {n m : Nat} (h1 : m * m ≤ n)
    (h2 : n < (m + 1) * (m + 1)) : Nat.sqrt n = m :=
  Nat.le_antisymm (Nat.le_of_lt_succ (Nat.sqrt_lt.mpr h2)) (Nat.le_sqrt.mpr h1)

theorem roundF32_of_lt {n : Nat} (h : n < 2 ^ 24) : roundF32 n = n := by
  unfold roundF32
  rw [if_pos h]

theorem f32SqrtTrunc_of_lt {x : Nat} (h : x < 2 ^ 24) :
    f32SqrtTrunc x = Nat.sqrt x := by
  simp only [f32SqrtTrunc, sqrtFloor_eq, log2floor_eq]
  by_cases hm0 : Nat.sqrt x = 0
  · rw [if_pos hm0, hm0]
  · have hm12 : Nat.sqrt x < 4096 := by
      refine Nat.sqrt_lt.mpr ?_
      calc x < 2 ^ 24 := h
        _ = 4096 * 4096 := by norm_num
    have hm24 : Nat.sqrt x < 2 ^ 24 := by
      have : (2 : Nat) ^ 24 = 16777216 := by norm_num
      omega
    have hL : (Nat.sqrt x).log2 ≤ 11 := by
      have h4096 : Nat.sqrt x < 2 ^ 12 := by
        have : (2 : Nat) ^ 12 = 4096 := by norm_num
        omega
      have := (Nat.log2_lt hm0).mpr h4096
      omega
    have hmL : Nat.sqrt x < 2 ^ ((Nat.sqrt x).log2 + 1) := Nat.lt_log2_self
    have hS : 2 * (Nat.sqrt x + 1) ≤ 2 ^ (24 - (Nat.sqrt x).log2) := by
      have h2 : 2 * (Nat.sqrt x + 1) ≤ 2 ^ ((Nat.sqrt x).log2 + 2) := by
        have e1 : (2 : Nat) ^ ((Nat.sqrt x).log2 + 2)
            = 2 ^ ((Nat.sqrt x).log2 + 1) * 2 := by
          rw [pow_succ]
        omega
      have h3 : (2 : Nat) ^ ((Nat.sqrt x).log2 + 2)
          ≤ 2 ^ (24 - (Nat.sqrt x).log2) :=
        Nat.pow_le_pow_right (by norm_num) (by omega)
      exact le_trans h2 h3
    have hx : x < (Nat.sqrt x + 1) * (Nat.sqrt x + 1) := Nat.lt_succ_sqrt x
    have hkey : x * (2 ^ (24 - (Nat.sqrt x).log2)) ^ 2
        ≤ ((Nat.sqrt x + 1) * 2 ^ (24 - (Nat.sqrt x).log2) - 1) ^ 2 := by
      set m := Nat.sqrt x with hmdef
      set S := (2 : Nat) ^ (24 - m.log2) with hSdef
      have hSpos : 0 < S := Nat.pos_pow_of_pos _ (by norm_num)
      have hpos0 : 0 < (m + 1) * S := by positivity
      have hpos : 1 ≤ (m + 1) * S := hpos0
      zify [hpos]
      have hxz : (x : ℤ) + 1 ≤ ((m : ℤ) + 1) * ((m : ℤ) + 1) := by exact_mod_cast hx
      have hSz : (2 : ℤ) * ((m : ℤ) + 1) ≤ (S : ℤ) := by exact_mod_cast hS
      have hA := mul_le_mul_of_nonneg_right hSz
        (show (0 : ℤ) ≤ (S : ℤ) by positivity)
      have hB := mul_le_mul_of_nonneg_right hxz
        (show (0 : ℤ) ≤ (S : ℤ) ^ 2 by positivity)
      nlinarith [hA, hB]
    rw [if_neg hm0, if_pos hm24, if_neg (not_lt.mpr hkey)]

theorem textureSide_of_lt {n : Nat} (h : n < 2 ^ 24) :
    textureSide n = Nat.sqrt n + 1 := by
  have h1 : Nat.sqrt n < 4096 := by
    refine Nat.sqrt_lt.mpr ?_
    calc n < 2 ^ 24 := h
      _ = 4096 * 4096 := by norm_num
  unfold textureSide
  rw [roundF32_of_lt h, f32SqrtTrunc_of_lt h]
  have hmin : min (Nat.sqrt n) (2 ^ 32 - 1) = Nat.sqrt n := by
    refine min_eq_left ?_
    have : (2 : Nat) ^ 32 - 1 = 4294967295 := by norm_num
    omega
  rw [hmin, Nat.mod_eq_of_lt]
  have : (2 : Nat) ^ 32 = 4294967296 := by norm_num
  omega

theorem sqrt_16793603 : Nat.sqrt 16793603 = 4097 :=
  sqrt_eq_exact (by norm_num) (by norm_num)

theorem textureSide_16793603 : textureSide 16793603 = 4099 := by decide

/-- C1 counterexample: at N = 16793603 samples the program computes
side 4099, not floor(sqrt N) + 1 = 4098: the cast of N to f32 rounds it
up to 16793604 = 4098 * 4098 (N is odd, halfway between two
representable even neighbours, and the tie goes to the even mantissa),
whose f32 square root is exactly 4098, truncated and incremented to
4099.  So the claimed side formula fails for inputs beyond binary32
integer precision. -/
theorem C1_counterexample :
    (prepare_texture_from_data Unit 4 () (List.replicate 16793603 ())).map
        (fun t => t.side) = some 4099 ∧
    Nat.sqrt (List.replicate 16793603 ()).length + 1 = 4098 := by
  have hl : (List.replicate 16793603 ()).length = 16793603 :=
    List.length_replicate _ _
  constructor
  · simp only [prepare_texture_from_data, hl, textureSide_16793603]
    rw [if_pos (by norm_num : (16793603 : Nat) ≤ (4099 * 4099) % 2 ^ 32)]
    rfl
  · rw [hl, sqrt_16793603]

/-- C1 amended: for every input of N < 2^24 samples, where binary32
represents N exactly and the rounded square root cannot cross an
integer, prepare_texture_from_data produces a square texture of side
s = floor(sqrt N) + 1 with s * s >= N, pads the sequence with
default-valued entries to exactly s * s elements, uploads with row
stride elemSize * s (no u32 wrap for elemSize < 2^20) and returns a 2D
texture view with one mip level and one array layer, the first N texels
being the input in original order; beyond 2^24 samples the f32 rounding
of N can push the side one above floor(sqrt N) + 1 (see the
counterexample). -/
theorem C1_texture_packer_amended (α : Type) (elemSize : Nat) (dflt : α)
    (data : List α) (h : data.length < 2 ^ 24) (he : elemSize < 2 ^ 20) :
    ∃ t, prepare_texture_from_data α elemSize dflt data = some t ∧
      t.side = Nat.sqrt data.length + 1 ∧
      data.length ≤ t.side * t.side ∧
      t.texels.length = t.side * t.side ∧
      t.texels.take data.length = data ∧
      (∀ x ∈ t.texels.drop data.length, x = dflt) ∧
      t.bytesPerRow = elemSize * t.side ∧
      t.mipLevelCount = 1 ∧ t.viewMipLevelCount = 1 ∧
      t.depthOrArrayLayers = 1 ∧ t.viewArrayLayerCount = 1 ∧
      t.view2d = true := by
  have hside2 : textureSide data.length = Nat.sqrt data.length + 1 :=
    textureSide_of_lt h
  have hsq : Nat.sqrt data.length < 4096 := by
    refine Nat.sqrt_lt.mpr ?_
    calc data.length < 2 ^ 24 := h
      _ = 4096 * 4096 := by norm_num
  have hss : (Nat.sqrt data.length + 1) * (Nat.sqrt data.length + 1) < 2 ^ 32 := by
    have h1 : Nat.sqrt data.length + 1 ≤ 4096 := by omega
    have h2 : (Nat.sqrt data.length + 1) * (Nat.sqrt data.length + 1)
        ≤ 4096 * 4096 := Nat.mul_le_mul h1 h1
    have : (2 : Nat) ^ 32 = 4294967296 := by norm_num
    omega
  have hmod : ((Nat.sqrt data.length + 1) * (Nat.sqrt data.length + 1)) % 2 ^ 32
      = (Nat.sqrt data.length + 1) * (Nat.sqrt data.length + 1) :=
    Nat.mod_eq_of_lt hss
  have hrow : (elemSize * (Nat.sqrt data.length + 1)) % 2 ^ 32
      = elemSize * (Nat.sqrt data.length + 1) := by
    refine Nat.mod_eq_of_lt ?_
    have h1 : Nat.sqrt data.length + 1 ≤ 4096 := by omega
    have h2 : elemSize * (Nat.sqrt data.length + 1) ≤ 1048575 * 4096 := by
      refine Nat.mul_le_mul ?_ h1
      have : (2 : Nat) ^ 20 = 1048576 := by norm_num
      omega
    have : (2 : Nat) ^ 32 = 4294967296 := by norm_num
    omega
  have hcap : data.length ≤ (Nat.sqrt data.length + 1) * (Nat.sqrt data.length + 1) :=
    Nat.le_of_lt (Nat.lt_succ_sqrt data.length)
  have hval : prepare_texture_from_data α elemSize dflt data
      = some ⟨Nat.sqrt data.length + 1,
          data ++ List.replicate
            ((Nat.sqrt data.length + 1) * (Nat.sqrt data.length + 1)
              - data.length) dflt,
          elemSize * (Nat.sqrt data.length + 1), 1, 1, 1, 1, 1, true⟩ := by
    simp only [prepare_texture_from_data, hside2, hmod, hrow]
    rw [if_pos hcap]
  refine ⟨_, hval, rfl, hcap, ?_, ?_, ?_, rfl, rfl, rfl, rfl, rfl, rfl⟩
  · simp [Nat.add_sub_cancel' hcap]
  · exact List.take_left _ _
  · intro x hx
    simp only [List.drop_left] at hx
    exact List.eq_of_mem_replicate hx

/-- C1 amended witness: the packer evaluated at a concrete three-sample
input (side 2, one padding texel). -/
theorem C1_texture_packer_amended_witness :
    ∃ t, prepare_texture_from_data Nat 4 0 [5, 6, 7] = some t ∧
      t.side = Nat.sqrt [5, 6, 7].length + 1 ∧
      [5, 6, 7].length ≤ t.side * t.side ∧
      t.texels.length = t.side * t.side ∧
      t.texels.take [5, 6, 7].length = [5, 6, 7] ∧
      (∀ x ∈ t.texels.drop [5, 6, 7].length, x = 0) ∧
      t.bytesPerRow = 4 * t.side ∧
      t.mipLevelCount = 1 ∧ t.viewMipLevelCount = 1 ∧
      t.depthOrArrayLayers = 1 ∧ t.viewArrayLayerCount = 1 ∧
      t.view2d = true :=
  C1_texture_packer_amended Nat 4 0 [5, 6, 7] (by norm_num) (by norm_num)

/-! ## Pipeline bind-group layouts (grass_pipeline.rs, GrassPipeline::from_world) -/

/-- region_layout: binding 0 a uniform buffer (config), binding 1 the
wind-noise texture. -/
def region_layout : List BindingEntry :=
  [⟨0, .buffer⟩, ⟨1, .textureView⟩]

/-- height_map_layout: binding 0 the height-map texture, binding 1 the
aabb uniform buffer. -/
def height_map_layout : List BindingEntry :=
  [⟨0, .textureView⟩, ⟨1, .buffer⟩]

/-! ## prepare_instance_buffers (render.rs) -/

/-- The loop body of prepare_instance_buffers: for every cache entry,
unconditionally create a fresh instance buffer, a region color buffer, a
region wind buffer and a bind group with entries (0: color buffer,
1: wind buffer, 2: wind-noise or fallback texture view), then store the
instance buffer and the bind group in the entry. -/
def instancePass (texView : Nat) :
    List (Nat × CacheEntry) → Gpu → List (Nat × CacheEntry) × Gpu
  | [], g => ([], g)
  | (e, chunk) :: rest, g =>
    -- four create calls: entity buffer, color buffer, wind buffer, bind group
    let entityBuf := g.next
    let colorBuf := g.next + 1
    let windBuf := g.next + 2
    let bgId := g.next + 3
    let bg : BindGroup :=
      ⟨bgId, [(0, .buf colorBuf), (1, .buf windBuf), (2, .tex texView)]⟩
    let chunk2 := { chunk with grass_buffer := some entityBuf,
                               uniform_bindgroup := some bg }
    let tail := instancePass texView rest ⟨g.next + 4⟩
    ((e, chunk2) :: tail.1, tail.2)

/-- prepare_instance_buffers: resolve the wind-noise texture (falling
back to the fallback image) and run the per-entry loop over the whole
cache; there is no change detection in this system. -/
def prepare_instance_buffers (images : Nat → Option Nat)
    (fallbackView : Nat) (windNoiseTex : Nat)
    (cache : List (Nat × CacheEntry)) (gpu : Gpu) :
    List (Nat × CacheEntry) × Gpu :=
  instancePass ((images windNoiseTex).getD fallbackView) cache gpu

/-! ## prepare_uniform_buffers (prepare.rs) -/

/-- State threaded through prepare_uniform_buffers: the cache, the Local
storing the texture-view id seen last frame, and the GPU allocator. -/
structure UniformState where
  cache : List (Nat × CacheEntry)
  lastTextureId : Option Nat
  gpu : Gpu
deriving DecidableEq

/-- prepare_uniform_buffers: resolve the wind-noise view (or fallback);
return immediately when the region config is unchanged, the view id
equals the one of last frame, and the cache is unchanged; otherwise
record the view id, create the region config buffer and the region bind
group (binding 0 the buffer, binding 1 the view) and store a clone of
that bind group in every cache entry. -/
def prepare_uniform_buffers (images : Nat → Option Nat)
    (fallbackView : Nat) (regionChanged cacheChanged : Bool)
    (noiseHandle : Nat) (st : UniformState) : UniformState :=
  let texView := (images noiseHandle).getD fallbackView
  if regionChanged = false ∧ st.lastTextureId = some texView
      ∧ cacheChanged = false then
    st
  else
    -- two create calls: the region config buffer and the region bind group
    let configBuf := st.gpu.next
    let bgId := st.gpu.next + 1
    let bg : BindGroup := ⟨bgId, [(0, .buf configBuf), (1, .tex texView)]⟩
    { cache := st.cache.map (fun p => (p.1, { p.2 with uniform_bindgroup := some bg }))
      lastTextureId := some texView
      gpu := ⟨st.gpu.next + 2⟩ }

/-- C4: prepare_uniform_buffers performs no GPU work and leaves every
cache entry unchanged if and only if the region configuration is
unchanged, the resolved wind-noise view id equals the one of the last
frame, and the cache is unchanged; when any of the three is dirty it
creates the region config buffer and bind group (two allocations) and
stores the bind group in every cache entry. -/
theorem C4_uniform_short_circuit (images : Nat → Option Nat)
    (fallbackView : Nat) (regionChanged cacheChanged : Bool)
    (noiseHandle : Nat) (st : UniformState) :
    (((prepare_uniform_buffers images fallbackView regionChanged cacheChanged
          noiseHandle st).gpu = st.gpu ∧
      (prepare_uniform_buffers images fallbackView regionChanged cacheChanged
          noiseHandle st).cache = st.cache) ↔
      (regionChanged = false
        ∧ st.lastTextureId = some ((images noiseHandle).getD fallbackView)
        ∧ cacheChanged = false)) ∧
    (¬ (regionChanged = false
        ∧ st.lastTextureId = some ((images noiseHandle).getD fallbackView)
        ∧ cacheChanged = false) →
      (prepare_uniform_buffers images fallbackView regionChanged cacheChanged
          noiseHandle st).gpu.next = st.gpu.next + 2 ∧
      (prepare_uniform_buffers images fallbackView regionChanged cacheChanged
          noiseHandle st).lastTextureId
        = some ((images noiseHandle).getD fallbackView) ∧
      ∀ p ∈ (prepare_uniform_buffers images fallbackView regionChanged
          cacheChanged noiseHandle st).cache,
        p.2.uniform_bindgroup = some ⟨st.gpu.next + 1,
          [(0, Resource.buf st.gpu.next),
           (1, Resource.tex ((images noiseHandle).getD fallbackView))]⟩) := by
  by_cases hclean : regionChanged = false
      ∧ st.lastTextureId = some ((images noiseHandle).getD fallbackView)
      ∧ cacheChanged = false
  · constructor
    · simp [prepare_uniform_buffers, hclean]
    · intro hc
      exact absurd hclean hc
  · constructor
    · simp only [prepare_uniform_buffers, if_neg hclean]
      constructor
      · rintro ⟨hg, -⟩
        exfalso
        have h2 := congrArg Gpu.next hg
        simp at h2
      · intro hc
        exact absurd hc hclean
    · intro _
      refine ⟨by simp [prepare_uniform_buffers, if_neg hclean],
              by simp [prepare_uniform_buffers, if_neg hclean], ?_⟩
      simp only [prepare_uniform_buffers, if_neg hclean]
      intro p hp
      rcases List.mem_map.mp hp with ⟨q, _, hq⟩
      rw [← hq]

/-- C4 witness: at a concrete dirty input the bind group is rebuilt, and
at the subsequent clean input the procedure is a no-op. -/
theorem C4_uniform_short_circuit_witness :
    ((prepare_uniform_buffers (fun _ => some 7) 9 true false 0
        ⟨[(0, CacheEntry.empty)], none, ⟨10⟩⟩).gpu.next = 12 ∧
      (prepare_uniform_buffers (fun _ => some 7) 9 true false 0
        ⟨[(0, CacheEntry.empty)], none, ⟨10⟩⟩).lastTextureId = some 7 ∧
      ∀ p ∈ (prepare_uniform_buffers (fun _ => some 7) 9 true false 0
        ⟨[(0, CacheEntry.empty)], none, ⟨10⟩⟩).cache,
        p.2.uniform_bindgroup
          = some ⟨11, [(0, Resource.buf 10), (1, Resource.tex 7)]⟩) ∧
    ((prepare_uniform_buffers (fun _ => some 7) 9 false false 0
        ⟨[(0, CacheEntry.empty)], some 7, ⟨10⟩⟩).gpu
        = (⟨[(0, CacheEntry.empty)], some 7, ⟨10⟩⟩ : UniformState).gpu ∧
      (prepare_uniform_buffers (fun _ => some 7) 9 false false 0
        ⟨[(0, CacheEntry.empty)], some 7, ⟨10⟩⟩).cache
        = (⟨[(0, CacheEntry.empty)], some 7, ⟨10⟩⟩ : UniformState).cache) := by
  constructor
  · exact (C4_uniform_short_circuit (fun _ => some 7) 9 true false 0
      ⟨[(0, CacheEntry.empty)], none, ⟨10⟩⟩).2 (by decide)
  · exact ((C4_uniform_short_circuit (fun _ => some 7) 9 false false 0
      ⟨[(0, CacheEntry.empty)], some 7, ⟨10⟩⟩).1).mpr (by decide)

theorem instancePass_gpu_next (texView : Nat) :
    ∀ (c : List (Nat × CacheEntry)) (g : Gpu),
      (instancePass texView c g).2.next = g.next + 4 * c.length := by
  intro c
  induction c with
  | nil => intro g; rfl
  | cons p rest ih =>
    intro g
    cases p with
    | mk e chunk =>
      simp only [instancePass, List.length_cons, ih ⟨g.next + 4⟩]
      show g.next + 4 + 4 * rest.length = g.next + 4 * (rest.length + 1)
      omega

theorem instancePass_fresh (texView : Nat) :
    ∀ (c : List (Nat × CacheEntry)) (g : Gpu),
      ∀ p ∈ (instancePass texView c g).1,
        ∃ id bg, p.2.grass_buffer = some id ∧ g.next ≤ id ∧
          p.2.uniform_bindgroup = some bg ∧ g.next ≤ bg.gid := by
  intro c
  induction c with
  | nil => intro g p hp; simp [instancePass] at hp
  | cons q rest ih =>
    intro g p hp
    cases q with
    | mk e chunk =>
      simp only [instancePass, List.mem_cons] at hp
      rcases hp with hp | hp
      · subst hp
        exact ⟨g.next, ⟨g.next + 3,
          [(0, .buf (g.next + 1)), (1, .buf (g.next + 2)), (2, .tex texView)]⟩,
          rfl, Nat.le_refl _, rfl,
          show g.next ≤ g.next + 3 from Nat.le_add_right _ _⟩
      · rcases ih ⟨g.next + 4⟩ p hp with ⟨id, bg, h1, h2, h3, h4⟩
        have h2b : g.next + 4 ≤ id := h2
        have h4b : g.next + 4 ≤ bg.gid := h4
        exact ⟨id, bg, h1, by omega, h3, by omega⟩

/-- C3 counterexample: re-running prepare_instance_buffers on a one-entry
cache with identical inputs and nothing changed replaces the instance
buffer handle (0 after the first run, 4 after the second), so GPU handles
are not preserved across an unchanged re-run. -/
theorem C3_counterexample :
    (cacheGet (prepare_instance_buffers (fun _ => none) 99 0
        [(0, CacheEntry.empty)] ⟨0⟩).1 0).map CacheEntry.grass_buffer
      = some (some 0) ∧
    (cacheGet (prepare_instance_buffers (fun _ => none) 99 0
        (prepare_instance_buffers (fun _ => none) 99 0
          [(0, CacheEntry.empty)] ⟨0⟩).1
        (prepare_instance_buffers (fun _ => none) 99 0
          [(0, CacheEntry.empty)] ⟨0⟩).2).1 0).map CacheEntry.grass_buffer
      = some (some 4) := by decide

/-- C3 amended: prepare_instance_buffers has no change detection: every
run performs four allocations per cache entry and stores a freshly
allocated instance buffer and bind group (handles at least the current
allocator counter) in every entry, so re-running with unchanged inputs
reallocates instead of preserving handles; only prepare_uniform_buffers
short-circuits on unchanged input. -/
theorem C3_instance_buffers_reallocate (images : Nat → Option Nat)
    (fallbackView : Nat) (windNoiseTex : Nat)
    (cache : List (Nat × CacheEntry)) (gpu : Gpu) :
    (prepare_instance_buffers images fallbackView windNoiseTex cache gpu).2.next
      = gpu.next + 4 * cache.length ∧
    ∀ p ∈ (prepare_instance_buffers images fallbackView windNoiseTex cache gpu).1,
      ∃ id bg, p.2.grass_buffer = some id ∧ gpu.next ≤ id ∧
        p.2.uniform_bindgroup = some bg ∧ gpu.next ≤ bg.gid :=
  ⟨instancePass_gpu_next _ cache gpu, instancePass_fresh _ cache gpu⟩

/-- C3 amended witness: the reallocation bound evaluated at a concrete
one-entry cache. -/
theorem C3_instance_buffers_reallocate_witness :
    (prepare_instance_buffers (fun _ => none) 99 0
        [(0, CacheEntry.empty)] ⟨6⟩).2.next = 6 + 4 * [(0, CacheEntry.empty)].length ∧
    ∀ p ∈ (prepare_instance_buffers (fun _ => none) 99 0
        [(0, CacheEntry.empty)] ⟨6⟩).1,
      ∃ id bg, p.2.grass_buffer = some id ∧ 6 ≤ id ∧
        p.2.uniform_bindgroup = some bg ∧ 6 ≤ bg.gid :=
  C3_instance_buffers_reallocate (fun _ => none) 99 0 [(0, CacheEntry.empty)] ⟨6⟩

/-- C10: the bind group that prepare_instance_buffers builds against the
region layout supplies bindings (0: buffer, 1: buffer, 2: texture view),
which is not the binding set (0: buffer, 1: texture view) that
GrassPipeline region_layout declares, so its creation fails a
layout-compatibility check; the region bind group built by
prepare_uniform_buffers does match the layout exactly. -/
theorem C10_region_layout_mismatch :
    ((cacheGet (prepare_instance_buffers (fun _ => none) 99 0
        [(0, CacheEntry.empty)] ⟨0⟩).1 0).bind
        CacheEntry.uniform_bindgroup).map BindGroup.kinds
      = some [⟨0, .buffer⟩, ⟨1, .buffer⟩, ⟨2, .textureView⟩] ∧
    ¬ ([⟨0, .buffer⟩, ⟨1, .buffer⟩, ⟨2, .textureView⟩] : List BindingEntry)
        = region_layout ∧
    ((cacheGet (prepare_uniform_buffers (fun _ => none) 99 true false 0
        ⟨[(0, CacheEntry.empty)], none, ⟨0⟩⟩).cache 0).bind
        CacheEntry.uniform_bindgroup).map BindGroup.kinds
      = some region_layout := by decide

/-! ## prepare_explicit_positions_buffer (prepare.rs) -/

/-- The Grass component: explicit blade positions (opaque coordinate
words) and the uniform blade height. -/
structure Grass where
  positions : List (Nat × Nat × Nat)
  height : Nat
deriving DecidableEq

/-- State threaded through prepare_explicit_positions_buffer. -/
structure PosState where
  cache : List (Nat × CacheEntry)
  gpu : Gpu
  warnings : Nat
deriving DecidableEq

/-- prepare_explicit_positions_buffer: for every entity of the query,
when its chunk is registered, create the xz vertex buffer, pack the y
values through prepare_texture_from_data (one texture and one view),
create the explicit-y bind group, then create the uniform height buffer
from grass.height and its bind group, storing all of them in the entry;
when the chunk is not registered, log a warning and touch nothing. -/
def prepare_explicit_positions_buffer :
    List (Nat × Grass) → PosState → PosState
  | [], st => st
  | (e, g) :: rest, st =>
    match cacheGet st.cache e with
    | some chunk =>
      -- six creations: xz buffer, y texture, y view, y bind group,
      -- height buffer, height bind group
      let n := st.gpu.next
      let chunk2 := { chunk with
        explicit_count := g.positions.length,
        explicit_xz_buffer := some n,
        explicit_y_buffer := some ⟨n + 3, [(0, .tex (n + 2))]⟩,
        height_buffer := some ⟨n + 5, [(0, .buf (n + 4))]⟩ }
      prepare_explicit_positions_buffer rest
        { st with cache := cacheSet st.cache e chunk2, gpu := ⟨n + 6⟩ }
    | none =>
      prepare_explicit_positions_buffer rest
        { st with warnings := st.warnings + 1 }

/-! ## prepare_height_buffer (prepare.rs) and its deferred-load queue -/

/-- The WarblerHeight component: a uniform scalar height or a
height-texture handle. -/
inductive WarblerHeight
  | Uniform (height : Nat)
  | Texture (handle : Nat)
deriving DecidableEq

/-- State threaded through prepare_height_buffer: the cache, the Local
deferred-load queue of (entity, image handle) records, the allocator and
the warning count. -/
structure HeightState where
  cache : List (Nat × CacheEntry)
  pending : List (Nat × Nat)
  gpu : Gpu
  warnings : Nat
deriving DecidableEq

/-- The resolution loop of prepare_height_buffer: walk the pending
records; for a registered chunk whose texture is now resolved, create
the height-map bind group from the resolved view, store it, and mark the
entity as loaded; for an unregistered chunk log a warning; otherwise
leave the record alone.  Returns the updated state and the loaded list. -/
def heightResolvePass (images : Nat → Option Nat) :
    List (Nat × Nat) → HeightState → HeightState × List Nat
  | [], st => (st, [])
  | (e, h) :: rest, st =>
    match cacheGet st.cache e with
    | some chunk =>
      match images h with
      | some texView =>
        let bg : BindGroup := ⟨st.gpu.next, [(0, .tex texView)]⟩
        let st2 := { st with
          cache := cacheSet st.cache e { chunk with blade_height_texture := some bg },
          gpu := ⟨st.gpu.next + 1⟩ }
        let tail := heightResolvePass images rest st2
        (tail.1, e :: tail.2)
      | none => heightResolvePass images rest st
    | none =>
      heightResolvePass images rest { st with warnings := st.warnings + 1 }

/-- The scan loop of prepare_height_buffer over the inserted query: for
a registered chunk, a Uniform height creates the height buffer and its
bind group; a Texture height creates the height-map bind group from the
resolved view, or from the fallback view while also enqueueing a pending
record when the image is not yet loaded; an unregistered chunk logs a
warning. -/
def heightScanPass (images : Nat → Option Nat) (fallbackView : Nat) :
    List (Nat × WarblerHeight) → HeightState → HeightState
  | [], st => st
  | (e, wh) :: rest, st =>
    match cacheGet st.cache e with
    | some chunk =>
      match wh with
      | .Uniform _ =>
        -- two creations: the height buffer and its bind group
        let bg : BindGroup := ⟨st.gpu.next + 1, [(0, .buf st.gpu.next)]⟩
        heightScanPass images fallbackView rest
          { st with
            cache := cacheSet st.cache e { chunk with height_buffer := some bg },
            gpu := ⟨st.gpu.next + 2⟩ }
      | .Texture h =>
        match images h with
        | some texView =>
          let bg : BindGroup := ⟨st.gpu.next, [(0, .tex texView)]⟩
          heightScanPass images fallbackView rest
            { st with
              cache := cacheSet st.cache e { chunk with blade_height_texture := some bg },
              gpu := ⟨st.gpu.next + 1⟩ }
        | none =>
          let bg : BindGroup := ⟨st.gpu.next, [(0, .tex fallbackView)]⟩
          heightScanPass images fallbackView rest
            { st with
              cache := cacheSet st.cache e { chunk with blade_height_texture := some bg },
              pending := st.pending ++ [(e, h)],
              gpu := ⟨st.gpu.next + 1⟩ }
    | none =>
      heightScanPass images fallbackView rest { st with warnings := st.warnings + 1 }

/-- prepare_height_buffer, one frame: run the resolution loop over the
queue, drop every record whose entity was loaded, then run the scan loop
over the inserted query (resolution strictly before enqueueing). -/
def prepare_height_buffer (images : Nat → Option Nat) (fallbackView : Nat)
    (inserted : List (Nat × WarblerHeight)) (st : HeightState) : HeightState :=
  let r := heightResolvePass images st.pending st
  let st2 := { r.1 with pending := r.1.pending.filter (fun p => !(r.2.contains p.1)) }
  heightScanPass images fallbackView inserted st2

/-! ## prepare_height_map_buffer (prepare.rs) and its deferred-load queue -/

/-- State threaded through prepare_height_map_buffer: the queue stores
(entity, image handle, aabb payload) records. -/
structure MapState where
  cache : List (Nat × CacheEntry)
  pending : List (Nat × Nat × Nat)
  gpu : Gpu
  warnings : Nat
deriving DecidableEq

/-- The resolution loop of prepare_height_map_buffer: for every pending
record whose texture is resolved, create the aabb buffer and the
height-map bind group, mark the entity loaded, and store the bind group
when the chunk is registered (warning otherwise); an unresolved record
is left alone.  The loaded mark does not depend on registration. -/
def mapResolvePass (images : Nat → Option Nat) :
    List (Nat × Nat × Nat) → MapState → MapState × List Nat
  | [], st => (st, [])
  | (e, h, _) :: rest, st =>
    match images h with
    | some texView =>
      -- two creations: the aabb buffer and the bind group
      let bg : BindGroup := ⟨st.gpu.next + 1, [(0, .tex texView), (1, .buf st.gpu.next)]⟩
      let st2 :=
        match cacheGet st.cache e with
        | some chunk =>
          { st with cache := cacheSet st.cache e { chunk with height_map := some bg },
                    gpu := ⟨st.gpu.next + 2⟩ }
        | none => { st with gpu := ⟨st.gpu.next + 2⟩, warnings := st.warnings + 1 }
      let tail := mapResolvePass images rest st2
      (tail.1, e :: tail.2)
    | none => mapResolvePass images rest st

/-- The scan loop of prepare_height_map_buffer over the inserted query:
resolve the texture or fall back and enqueue, create the aabb buffer and
bind group, and store it when the chunk is registered (warning
otherwise). -/
def mapScanPass (images : Nat → Option Nat) (fallbackView : Nat) :
    List (Nat × Nat × Nat) → MapState → MapState
  | [], st => st
  | (e, h, aabb) :: rest, st =>
    match images h with
    | some texView =>
      let bg : BindGroup := ⟨st.gpu.next + 1, [(0, .tex texView), (1, .buf st.gpu.next)]⟩
      match cacheGet st.cache e with
      | some chunk =>
        mapScanPass images fallbackView rest
          { st with cache := cacheSet st.cache e { chunk with height_map := some bg },
                    gpu := ⟨st.gpu.next + 2⟩ }
      | none =>
        mapScanPass images fallbackView rest
          { st with gpu := ⟨st.gpu.next + 2⟩, warnings := st.warnings + 1 }
    | none =>
      let bg : BindGroup := ⟨st.gpu.next + 1, [(0, .tex fallbackView), (1, .buf st.gpu.next)]⟩
      match cacheGet st.cache e with
      | some chunk =>
        mapScanPass images fallbackView rest
          { st with cache := cacheSet st.cache e { chunk with height_map := some bg },
                    pending := st.pending ++ [(e, h, aabb)],
                    gpu := ⟨st.gpu.next + 2⟩ }
      | none =>
        mapScanPass images fallbackView rest
          { st with pending := st.pending ++ [(e, h, aabb)],
                    gpu := ⟨st.gpu.next + 2⟩, warnings := st.warnings + 1 }

/-- prepare_height_map_buffer, one frame: resolution loop, then drop the
loaded records, then the scan loop over the inserted query. -/
def prepare_height_map_buffer (images : Nat → Option Nat) (fallbackView : Nat)
    (inserted : List (Nat × Nat × Nat)) (st : MapState) : MapState :=
  let r := mapResolvePass images st.pending st
  let st2 := { r.1 with pending := r.1.pending.filter (fun p => !(r.2.contains p.1)) }
  mapScanPass images fallbackView inserted st2

/-- C2 counterexample: an entity carrying both a Grass component and
WarblerHeight.Texture ends one preparation frame with the uniform height
buffer (written unconditionally by prepare_explicit_positions_buffer)
and the height-map bind group (written by prepare_height_buffer) both
populated, so the two height representations are not mutually
exclusive. -/
theorem C2_counterexample :
    (cacheGet (prepare_height_buffer (fun _ => none) 50
        [(0, WarblerHeight.Texture 9)]
        ⟨(prepare_explicit_positions_buffer [(0, ⟨[(1, 2, 3)], 5⟩)]
            ⟨[(0, CacheEntry.empty)], ⟨0⟩, 0⟩).cache, [], ⟨6⟩, 0⟩).cache 0).map
      (fun c => (c.height_buffer.isSome, c.blade_height_texture.isSome))
      = some (true, true) := by decide

/-- C5 counterexample: a pending record whose texture is resolved this
frame is not removed when its chunk is no longer registered in the
cache: prepare_height_buffer keeps the record (0, 9) although image 9
resolves, because the resolution loop checks the cache before the
image. -/
theorem C5_counterexample :
    (prepare_height_buffer (fun h => if h = 9 then some 7 else none) 50 []
        ⟨[], [(0, 9)], ⟨0⟩, 0⟩).pending = [(0, 9)] := by decide

/-- C6 counterexample: re-arrival of the same unresolved request is not
a no-op: two frames of prepare_height_buffer over the same unresolved
texture of entity 0 leave two pending records for the same identity, so
no membership check guards enqueueing. -/
theorem C6_counterexample :
    (prepare_height_buffer (fun _ => none) 50 [(0, WarblerHeight.Texture 9)]
        (prepare_height_buffer (fun _ => none) 50 [(0, WarblerHeight.Texture 9)]
          ⟨[(0, CacheEntry.empty)], [], ⟨0⟩, 0⟩)).pending
      = [(0, 9), (0, 9)] := by decide

/-- C7: spawn data for an unregistered chunk makes
prepare_explicit_positions_buffer log one warning and leave the cache
and the allocator untouched (no partial resources), and once the chunk
is registered a later run prepares it fully. -/
theorem C7_unregistered_chunk_skipped (e : Nat) (g : Grass) (st : PosState)
    (h : cacheGet st.cache e = none) :
    prepare_explicit_positions_buffer [(e, g)] st
      = { st with warnings := st.warnings + 1 } ∧
    ∀ (st2 : PosState) (c : CacheEntry), cacheGet st2.cache e = some c →
      ∃ c2, cacheGet (prepare_explicit_positions_buffer [(e, g)] st2).cache e
          = some c2 ∧
        c2.explicit_xz_buffer.isSome ∧ c2.explicit_y_buffer.isSome ∧
        c2.height_buffer.isSome ∧ c2.explicit_count = g.positions.length := by
  constructor
  · simp [prepare_explicit_positions_buffer, h]
  · intro st2 c h2
    have hmain : cacheGet (prepare_explicit_positions_buffer [(e, g)] st2).cache e
        = some { c with
            explicit_count := g.positions.length
            explicit_xz_buffer := some st2.gpu.next
            explicit_y_buffer := some (BindGroup.mk (st2.gpu.next + 3) [(0, Resource.tex (st2.gpu.next + 2))])
            height_buffer := some (BindGroup.mk (st2.gpu.next + 5) [(0, Resource.buf (st2.gpu.next + 4))]) } := by
      simp only [prepare_explicit_positions_buffer, h2]
      exact cacheGet_cacheSet_self h2
    exact ⟨_, hmain, rfl, rfl, rfl, rfl⟩

/-- C7 witness: the skip at a concrete unregistered entity and the
successful preparation after registration. -/
theorem C7_unregistered_chunk_skipped_witness :
    prepare_explicit_positions_buffer [(1, ⟨[], 4⟩)]
        ⟨[(0, CacheEntry.empty)], ⟨0⟩, 0⟩
      = { cache := [(0, CacheEntry.empty)], gpu := ⟨0⟩, warnings := 0 + 1 } ∧
    (∃ c2, cacheGet (prepare_explicit_positions_buffer [(1, ⟨[], 4⟩)]
        ⟨[(1, CacheEntry.empty)], ⟨0⟩, 0⟩).cache 1 = some c2 ∧
      c2.explicit_xz_buffer.isSome ∧ c2.explicit_y_buffer.isSome ∧
      c2.height_buffer.isSome ∧
      c2.explicit_count = (Grass.mk [] 4).positions.length) :=
  ⟨(C7_unregistered_chunk_skipped 1 ⟨[], 4⟩
      ⟨[(0, CacheEntry.empty)], ⟨0⟩, 0⟩ (by decide)).1,
   (C7_unregistered_chunk_skipped 1 ⟨[], 4⟩
      ⟨[(0, CacheEntry.empty)], ⟨0⟩, 0⟩ (by decide)).2
      ⟨[(1, CacheEntry.empty)], ⟨0⟩, 0⟩ CacheEntry.empty (by decide)⟩

/-- C8: an unresolved texture makes both height systems build the
dependent bind group from the fallback view, store it in the registered
cache entry, and enqueue one pending record, with no warning or error
logged. -/
theorem C8_fallback_on_unresolved (images : Nat → Option Nat)
    (fallbackView e h aabb : Nat) (st : HeightState) (stm : MapState)
    (c cm : CacheEntry)
    (hc : cacheGet st.cache e = some c) (hp : st.pending = [])
    (hcm : cacheGet stm.cache e = some cm) (hpm : stm.pending = [])
    (himg : images h = none) :
    (prepare_height_buffer images fallbackView [(e, WarblerHeight.Texture h)] st).pending = [(e, h)] ∧
    (prepare_height_buffer images fallbackView [(e, WarblerHeight.Texture h)] st).warnings = st.warnings ∧
    (prepare_height_buffer images fallbackView [(e, WarblerHeight.Texture h)] st).gpu = Gpu.mk (st.gpu.next + 1) ∧
    cacheGet (prepare_height_buffer images fallbackView [(e, WarblerHeight.Texture h)] st).cache e
      = some { c with blade_height_texture := some (BindGroup.mk st.gpu.next [(0, Resource.tex fallbackView)]) } ∧
    (prepare_height_map_buffer images fallbackView [(e, h, aabb)] stm).pending = [(e, h, aabb)] ∧
    (prepare_height_map_buffer images fallbackView [(e, h, aabb)] stm).warnings = stm.warnings ∧
    (prepare_height_map_buffer images fallbackView [(e, h, aabb)] stm).gpu = Gpu.mk (stm.gpu.next + 2) ∧
    cacheGet (prepare_height_map_buffer images fallbackView [(e, h, aabb)] stm).cache e
      = some { cm with height_map := some (BindGroup.mk (stm.gpu.next + 1) [(0, Resource.tex fallbackView), (1, Resource.buf stm.gpu.next)]) } := by
  have h1 : prepare_height_buffer images fallbackView [(e, WarblerHeight.Texture h)] st
      = HeightState.mk
          (cacheSet st.cache e { c with blade_height_texture := some (BindGroup.mk st.gpu.next [(0, Resource.tex fallbackView)]) })
          [(e, h)] (Gpu.mk (st.gpu.next + 1)) st.warnings := by
    simp [prepare_height_buffer, hp, heightResolvePass, heightScanPass, hc, himg]
  have h2 : prepare_height_map_buffer images fallbackView [(e, h, aabb)] stm
      = MapState.mk
          (cacheSet stm.cache e { cm with height_map := some (BindGroup.mk (stm.gpu.next + 1) [(0, Resource.tex fallbackView), (1, Resource.buf stm.gpu.next)]) })
          [(e, h, aabb)] (Gpu.mk (stm.gpu.next + 2)) stm.warnings := by
    simp [prepare_height_map_buffer, hpm, mapResolvePass, mapScanPass, hcm, himg]
  rw [h1, h2]
  exact ⟨rfl, rfl, rfl, cacheGet_cacheSet_self hc, rfl, rfl, rfl, cacheGet_cacheSet_self hcm⟩

/-- C8 witness: the fallback path evaluated at a concrete unresolved
handle. -/
theorem C8_fallback_on_unresolved_witness :
    (prepare_height_buffer (fun _ => none) 50 [(2, WarblerHeight.Texture 9)] (HeightState.mk [(2, CacheEntry.empty)] [] (Gpu.mk 3) 0)).pending = [(2, 9)] ∧
    (prepare_height_buffer (fun _ => none) 50 [(2, WarblerHeight.Texture 9)] (HeightState.mk [(2, CacheEntry.empty)] [] (Gpu.mk 3) 0)).warnings = (HeightState.mk [(2, CacheEntry.empty)] [] (Gpu.mk 3) 0).warnings ∧
    (prepare_height_buffer (fun _ => none) 50 [(2, WarblerHeight.Texture 9)] (HeightState.mk [(2, CacheEntry.empty)] [] (Gpu.mk 3) 0)).gpu = Gpu.mk ((HeightState.mk [(2, CacheEntry.empty)] [] (Gpu.mk 3) 0).gpu.next + 1) ∧
    cacheGet (prepare_height_buffer (fun _ => none) 50 [(2, WarblerHeight.Texture 9)] (HeightState.mk [(2, CacheEntry.empty)] [] (Gpu.mk 3) 0)).cache 2
      = some { CacheEntry.empty with blade_height_texture := some (BindGroup.mk (HeightState.mk [(2, CacheEntry.empty)] [] (Gpu.mk 3) 0).gpu.next [(0, Resource.tex 50)]) } ∧
    (prepare_height_map_buffer (fun _ => none) 50 [(2, 9, 7)] (MapState.mk [(2, CacheEntry.empty)] [] (Gpu.mk 3) 0)).pending = [(2, 9, 7)] ∧
    (prepare_height_map_buffer (fun _ => none) 50 [(2, 9, 7)] (MapState.mk [(2, CacheEntry.empty)] [] (Gpu.mk 3) 0)).warnings = (MapState.mk [(2, CacheEntry.empty)] [] (Gpu.mk 3) 0).warnings ∧
    (prepare_height_map_buffer (fun _ => none) 50 [(2, 9, 7)] (MapState.mk [(2, CacheEntry.empty)] [] (Gpu.mk 3) 0)).gpu = Gpu.mk ((MapState.mk [(2, CacheEntry.empty)] [] (Gpu.mk 3) 0).gpu.next + 2) ∧
    cacheGet (prepare_height_map_buffer (fun _ => none) 50 [(2, 9, 7)] (MapState.mk [(2, CacheEntry.empty)] [] (Gpu.mk 3) 0)).cache 2
      = some { CacheEntry.empty with height_map := some (BindGroup.mk ((MapState.mk [(2, CacheEntry.empty)] [] (Gpu.mk 3) 0).gpu.next + 1) [(0, Resource.tex 50), (1, Resource.buf (MapState.mk [(2, CacheEntry.empty)] [] (Gpu.mk 3) 0).gpu.next)]) } :=
  C8_fallback_on_unresolved (fun _ => none) 50 2 9 7
    (HeightState.mk [(2, CacheEntry.empty)] [] (Gpu.mk 3) 0)
    (MapState.mk [(2, CacheEntry.empty)] [] (Gpu.mk 3) 0)
    CacheEntry.empty CacheEntry.empty
    (by decide) rfl (by decide) rfl rfl

/-- C2 amended: a preparation run populates the height representation
selected by the current WarblerHeight value but never clears the other
field, which keeps its previous content. -/
theorem C2_height_fields_not_cleared (images : Nat → Option Nat)
    (fallbackView e hv th : Nat) (st su : HeightState) (c cu : CacheEntry)
    (hc : cacheGet st.cache e = some c) (hp : st.pending = [])
    (hcu : cacheGet su.cache e = some cu) (hpu : su.pending = []) :
    (∃ c2, cacheGet (prepare_height_buffer images fallbackView
        [(e, WarblerHeight.Uniform hv)] st).cache e = some c2 ∧
      c2.height_buffer.isSome ∧
      c2.blade_height_texture = c.blade_height_texture) ∧
    (∃ c3, cacheGet (prepare_height_buffer images fallbackView
        [(e, WarblerHeight.Texture th)] su).cache e = some c3 ∧
      c3.blade_height_texture.isSome ∧
      c3.height_buffer = cu.height_buffer) := by
  constructor
  · have h1 : cacheGet (prepare_height_buffer images fallbackView
        [(e, WarblerHeight.Uniform hv)] st).cache e
        = some { c with height_buffer := some (BindGroup.mk (st.gpu.next + 1) [(0, Resource.buf st.gpu.next)]) } := by
      simp only [prepare_height_buffer, hp, heightResolvePass, List.filter,
        heightScanPass, hc]
      exact cacheGet_cacheSet_self hc
    exact ⟨_, h1, rfl, rfl⟩
  · cases himg : images th with
    | some tv =>
      have h1 : cacheGet (prepare_height_buffer images fallbackView
          [(e, WarblerHeight.Texture th)] su).cache e
          = some { cu with blade_height_texture := some (BindGroup.mk su.gpu.next [(0, Resource.tex tv)]) } := by
        simp only [prepare_height_buffer, hpu, heightResolvePass, List.filter,
          heightScanPass, hcu, himg]
        exact cacheGet_cacheSet_self hcu
      exact ⟨_, h1, rfl, rfl⟩
    | none =>
      have h1 : cacheGet (prepare_height_buffer images fallbackView
          [(e, WarblerHeight.Texture th)] su).cache e
          = some { cu with blade_height_texture := some (BindGroup.mk su.gpu.next [(0, Resource.tex fallbackView)]) } := by
        simp only [prepare_height_buffer, hpu, heightResolvePass, List.filter,
          heightScanPass, hcu, himg]
        exact cacheGet_cacheSet_self hcu
      exact ⟨_, h1, rfl, rfl⟩

/-- C2 amended witness: concrete entries keeping the stale field: a
Uniform run after a Texture run leaves both representations present. -/
theorem C2_height_fields_not_cleared_witness :
    (∃ c2, cacheGet (prepare_height_buffer (fun _ => none) 50
        [(3, WarblerHeight.Uniform 8)] (HeightState.mk
          [(3, { CacheEntry.empty with blade_height_texture := some (BindGroup.mk 77 [(0, Resource.tex 50)]) })] [] (Gpu.mk 80) 0)).cache 3
        = some c2 ∧
      c2.height_buffer.isSome ∧
      c2.blade_height_texture = ({ CacheEntry.empty with blade_height_texture := some (BindGroup.mk 77 [(0, Resource.tex 50)]) } : CacheEntry).blade_height_texture) ∧
    (∃ c3, cacheGet (prepare_height_buffer (fun _ => none) 50
        [(3, WarblerHeight.Texture 9)] (HeightState.mk
          [(3, { CacheEntry.empty with blade_height_texture := some (BindGroup.mk 77 [(0, Resource.tex 50)]) })] [] (Gpu.mk 80) 0)).cache 3
        = some c3 ∧
      c3.blade_height_texture.isSome ∧
      c3.height_buffer = ({ CacheEntry.empty with blade_height_texture := some (BindGroup.mk 77 [(0, Resource.tex 50)]) } : CacheEntry).height_buffer) :=
  C2_height_fields_not_cleared (fun _ => none) 50 3 8 9
    (HeightState.mk [(3, { CacheEntry.empty with blade_height_texture := some (BindGroup.mk 77 [(0, Resource.tex 50)]) })] [] (Gpu.mk 80) 0)
    (HeightState.mk [(3, { CacheEntry.empty with blade_height_texture := some (BindGroup.mk 77 [(0, Resource.tex 50)]) })] [] (Gpu.mk 80) 0)
    { CacheEntry.empty with blade_height_texture := some (BindGroup.mk 77 [(0, Resource.tex 50)]) }
    { CacheEntry.empty with blade_height_texture := some (BindGroup.mk 77 [(0, Resource.tex 50)]) }
    (by decide) rfl (by decide) rfl

theorem heightResolvePass_unresolved (images : Nat → Option Nat) :
    ∀ (l : List (Nat × Nat)) (st : HeightState),
      (∀ q ∈ l, images q.2 = none) →
      ∃ k, heightResolvePass images l st
        = ({ st with warnings := st.warnings + k }, []) := by
  intro l
  induction l with
  | nil =>
    intro st _
    refine ⟨0, ?_⟩
    cases st
    rfl
  | cons q rest ih =>
    intro st hall
    cases q with
    | mk e2 h2 =>
      have himg2 : images h2 = none := hall (e2, h2) (List.mem_cons_self _ _)
      cases hcg : cacheGet st.cache e2 with
      | some chunk =>
        have hrest : ∀ p ∈ rest, images p.2 = none :=
          fun p hp => hall p (List.mem_cons_of_mem _ hp)
        rcases ih st hrest with ⟨k, hk⟩
        refine ⟨k, ?_⟩
        simpa only [heightResolvePass, hcg, himg2] using hk
      | none =>
        have hrest : ∀ p ∈ rest, images p.2 = none :=
          fun p hp => hall p (List.mem_cons_of_mem _ hp)
        rcases ih { st with warnings := st.warnings + 1 } hrest with ⟨k, hk⟩
        refine ⟨1 + k, ?_⟩
        simp only [heightResolvePass, hcg, himg2]
        rw [hk]
        cases st
        simp only [HeightState.mk.injEq, Prod.mk.injEq, true_and, and_true]
        omega

/-- C6 amended: no membership check guards the deferred-load queue: an
unresolved Texture request for a registered chunk appends a new pending
record every frame, even when a record for the same identity is already
queued, so duplicates accumulate; records for an identity are only
dropped when its texture resolves. -/
theorem C6_no_membership_guard (images : Nat → Option Nat)
    (fallbackView e h : Nat) (st : HeightState) (c : CacheEntry)
    (hc : cacheGet st.cache e = some c)
    (himg : images h = none)
    (hall : ∀ q ∈ st.pending, images q.2 = none) :
    (prepare_height_buffer images fallbackView
        [(e, WarblerHeight.Texture h)] st).pending
      = st.pending ++ [(e, h)] := by
  rcases heightResolvePass_unresolved images st.pending st hall with ⟨k, hk⟩
  have hfilter : st.pending.filter
      (fun p => !(List.contains ([] : List Nat) p.1)) = st.pending :=
    List.filter_eq_self.mpr (fun a _ => rfl)
  simp only [prepare_height_buffer, hk, hfilter, heightScanPass, hc, himg]

/-- C6 amended witness: with a record for entity 0 already pending and
its texture still unresolved, the frame appends a duplicate record. -/
theorem C6_no_membership_guard_witness :
    (prepare_height_buffer (fun _ => none) 50
        [(0, WarblerHeight.Texture 9)]
        (HeightState.mk [(0, CacheEntry.empty)] [(0, 9)] (Gpu.mk 0) 0)).pending
      = [(0, 9)] ++ [(0, 9)] :=
  C6_no_membership_guard (fun _ => none) 50 0 9
    (HeightState.mk [(0, CacheEntry.empty)] [(0, 9)] (Gpu.mk 0) 0)
    CacheEntry.empty (by decide) rfl (by decide)

theorem heightScanPass_get_of_not_mem (images : Nat → Option Nat)
    (fallbackView e : Nat) :
    ∀ (ins : List (Nat × WarblerHeight)) (s : HeightState),
      (∀ q ∈ ins, q.1 ≠ e) →
      cacheGet (heightScanPass images fallbackView ins s).cache e
        = cacheGet s.cache e := by
  intro ins
  induction ins with
  | nil => intro s _; rfl
  | cons r rest ih =>
    intro s hne
    cases r with
    | mk a wh =>
      have ha : a ≠ e := hne (a, wh) (List.mem_cons_self _ _)
      have hrest : ∀ q ∈ rest, q.1 ≠ e :=
        fun q hq => hne q (List.mem_cons_of_mem _ hq)
      cases hcg : cacheGet s.cache a with
      | none =>
        simp only [heightScanPass, hcg]
        exact ih _ hrest
      | some chunk =>
        cases wh with
        | Uniform hv =>
          simp only [heightScanPass, hcg]
          rw [ih _ hrest]
          exact cacheGet_cacheSet_ne (Ne.symm ha)
        | Texture th =>
          cases himg : images th with
          | some tv =>
            simp only [heightScanPass, hcg, himg]
            rw [ih _ hrest]
            exact cacheGet_cacheSet_ne (Ne.symm ha)
          | none =>
            simp only [heightScanPass, hcg, himg]
            rw [ih _ hrest]
            exact cacheGet_cacheSet_ne (Ne.symm ha)

theorem heightScanPass_pending_spec (images : Nat → Option Nat)
    (fallbackView : Nat) :
    ∀ (ins : List (Nat × WarblerHeight)) (s : HeightState) (q : Nat × Nat),
      q ∈ (heightScanPass images fallbackView ins s).pending →
      q ∈ s.pending
        ∨ ((q.1, WarblerHeight.Texture q.2) ∈ ins ∧ images q.2 = none) := by
  intro ins
  induction ins with
  | nil => intro s q hq; exact Or.inl hq
  | cons r rest ih =>
    intro s q hq
    cases r with
    | mk a wh =>
      cases hcg : cacheGet s.cache a with
      | none =>
        simp only [heightScanPass, hcg] at hq
        rcases ih _ q hq with h1 | ⟨h2, h3⟩
        · exact Or.inl h1
        · exact Or.inr ⟨List.mem_cons_of_mem _ h2, h3⟩
      | some chunk =>
        cases wh with
        | Uniform hv =>
          simp only [heightScanPass, hcg] at hq
          rcases ih _ q hq with h1 | ⟨h2, h3⟩
          · exact Or.inl h1
          · exact Or.inr ⟨List.mem_cons_of_mem _ h2, h3⟩
        | Texture th =>
          cases himg : images th with
          | some tv =>
            simp only [heightScanPass, hcg, himg] at hq
            rcases ih _ q hq with h1 | ⟨h2, h3⟩
            · exact Or.inl h1
            · exact Or.inr ⟨List.mem_cons_of_mem _ h2, h3⟩
          | none =>
            simp only [heightScanPass, hcg, himg] at hq
            rcases ih _ q hq with h1 | ⟨h2, h3⟩
            · rcases List.mem_append.mp h1 with h4 | h4
              · exact Or.inl h4
              · have hq2 : q = (a, th) := by simpa using h4
                subst hq2
                exact Or.inr ⟨List.mem_cons_self _ _, himg⟩
            · exact Or.inr ⟨List.mem_cons_of_mem _ h2, h3⟩

/-- C5 amended: when the pending record of a registered chunk resolves,
the frame removes it and rebuilds the blade-height bind group with the
real texture view, and because the resolution loop precedes the
enqueue scan, every record left in the queue after the frame is either
an old survivor or one whose texture is genuinely unresolved — a texture
resolved and re-requested in the same frame is never re-queued.
Removal does require the chunk to still be registered in the cache
(see the counterexample for the unregistered case). -/
theorem C5_resolution_before_enqueue (images : Nat → Option Nat)
    (fallbackView e h tex : Nat) (inserted : List (Nat × WarblerHeight))
    (st : HeightState) (c : CacheEntry)
    (hpend : st.pending = [(e, h)])
    (hc : cacheGet st.cache e = some c)
    (himg : images h = some tex)
    (hnotin : ∀ q ∈ inserted, q.1 ≠ e) :
    cacheGet (prepare_height_buffer images fallbackView inserted st).cache e
      = some { c with blade_height_texture := some (BindGroup.mk st.gpu.next [(0, Resource.tex tex)]) } ∧
    (∀ q ∈ (prepare_height_buffer images fallbackView inserted st).pending,
      q.1 ≠ e) ∧
    (∀ q ∈ (prepare_height_buffer images fallbackView inserted st).pending,
      q ∈ st.pending ∨ images q.2 = none) := by
  obtain ⟨cch, pnd, gp, wr⟩ := st
  simp only at hpend hc ⊢
  subst hpend
  have hres : heightResolvePass images [(e, h)] ⟨cch, [(e, h)], gp, wr⟩
      = (⟨cacheSet cch e { c with blade_height_texture := some (BindGroup.mk gp.next [(0, Resource.tex tex)]) },
          [(e, h)], Gpu.mk (gp.next + 1), wr⟩, [e]) := by
    simp only [heightResolvePass, hc, himg]
  have hfilter : List.filter (fun p => !(List.contains [e] p.1)) [(e, h)]
      = ([] : List (Nat × Nat)) := by
    simp [List.filter, List.contains]
  have hmain : prepare_height_buffer images fallbackView inserted
        ⟨cch, [(e, h)], gp, wr⟩
      = heightScanPass images fallbackView inserted
        ⟨cacheSet cch e { c with blade_height_texture := some (BindGroup.mk gp.next [(0, Resource.tex tex)]) },
          [], Gpu.mk (gp.next + 1), wr⟩ := by
    simp only [prepare_height_buffer, hres, hfilter]
  rw [hmain]
  refine ⟨?_, ?_, ?_⟩
  · rw [heightScanPass_get_of_not_mem images fallbackView e inserted _ hnotin]
    exact cacheGet_cacheSet_self hc
  · intro q hq
    rcases heightScanPass_pending_spec images fallbackView inserted _ q hq
      with h1 | ⟨h2, _⟩
    · exact absurd h1 (List.not_mem_nil q)
    · exact hnotin _ h2
  · intro q hq
    rcases heightScanPass_pending_spec images fallbackView inserted _ q hq
      with h1 | ⟨_, h3⟩
    · exact absurd h1 (List.not_mem_nil q)
    · exact Or.inr h3

/-- C5 amended witness: a concrete pending record resolving for a
registered chunk is removed and its bind group rebuilt from the real
view. -/
theorem C5_resolution_before_enqueue_witness :
    cacheGet (prepare_height_buffer (fun x => if x = 9 then some 7 else none)
        50 [] (HeightState.mk [(4, CacheEntry.empty)] [(4, 9)] (Gpu.mk 0) 0)).cache 4
      = some { CacheEntry.empty with blade_height_texture := some (BindGroup.mk (HeightState.mk [(4, CacheEntry.empty)] [(4, 9)] (Gpu.mk 0) 0).gpu.next [(0, Resource.tex 7)]) } ∧
    (∀ q ∈ (prepare_height_buffer (fun x => if x = 9 then some 7 else none)
        50 [] (HeightState.mk [(4, CacheEntry.empty)] [(4, 9)] (Gpu.mk 0) 0)).pending,
      q.1 ≠ 4) ∧
    (∀ q ∈ (prepare_height_buffer (fun x => if x = 9 then some 7 else none)
        50 [] (HeightState.mk [(4, CacheEntry.empty)] [(4, 9)] (Gpu.mk 0) 0)).pending,
      q ∈ (HeightState.mk [(4, CacheEntry.empty)] [(4, 9)] (Gpu.mk 0) 0).pending
        ∨ (fun x => if x = 9 then some 7 else none) q.2 = none) :=
  C5_resolution_before_enqueue (fun x => if x = 9 then some 7 else none)
    50 4 9 7 [] (HeightState.mk [(4, CacheEntry.empty)] [(4, 9)] (Gpu.mk 0) 0)
    CacheEntry.empty rfl (by decide) (by decide)
    (fun q hq => absurd hq (List.not_mem_nil q))

/-! ## queue_grass_buffers (render.rs, draw registration) -/

/-- A prepared render-asset mesh: its primitive topology and its vertex
buffer layout, both opaque words. -/
structure GrassMesh where
  topology : Nat
  layout : Nat
deriving DecidableEq

/-- The combined pipeline specialization key: msaa samples, the hdr flag
of the view, and the mesh primitive topology. -/
structure MeshKey where
  msaaSamples : Nat
  hdr : Bool
  topology : Nat
deriving DecidableEq

/-- An extracted view: an identifier and its hdr flag. -/
structure ViewData where
  viewId : Nat
  hdr : Bool
deriving DecidableEq

/-- One item of the opaque-3d render phase, as pushed by
queue_grass_buffers. -/
structure Opaque3dItem where
  entity : Nat
  pipeline : Nat
  draw_function : Nat
  distance : Int
deriving DecidableEq

/-- The inner loop of queue_grass_buffers for one view: for every
grass-tagged entity (entity, mesh-uniform transform, mesh handle) whose
mesh asset is resolved, push one phase item with the pipeline
specialized over the combined key and the mesh layout, the fixed draw
function, and the rangefinder distance of the transform; an entity with
an unresolved mesh is skipped. -/
def queueEntitiesForView (drawCustom msaaSamples : Nat)
    (sp : MeshKey → Nat → Nat) (meshes : Nat → Option GrassMesh)
    (rf : ViewData → Int → Int) (v : ViewData) :
    List (Nat × Int × Nat) → List Opaque3dItem
  | [] => []
  | (e, tf, mh) :: rest =>
    match meshes mh with
    | some m =>
      { entity := e
        pipeline := sp ⟨msaaSamples, v.hdr, m.topology⟩ m.layout
        draw_function := drawCustom
        distance := rf v tf }
        :: queueEntitiesForView drawCustom msaaSamples sp meshes rf v rest
    | none => queueEntitiesForView drawCustom msaaSamples sp meshes rf v rest

/-- queue_grass_buffers: for every view with an opaque phase, run the
entity loop and collect the phase items of that view. -/
def queue_grass_buffers (drawCustom msaaSamples : Nat)
    (sp : MeshKey → Nat → Nat) (meshes : Nat → Option GrassMesh)
    (rf : ViewData → Int → Int) (entities : List (Nat × Int × Nat))
    (views : List ViewData) : List (ViewData × List Opaque3dItem) :=
  views.map (fun v =>
    (v, queueEntitiesForView drawCustom msaaSamples sp meshes rf v entities))

theorem queueEntitiesForView_mem (drawCustom msaaSamples : Nat)
    (sp : MeshKey → Nat → Nat) (meshes : Nat → Option GrassMesh)
    (rf : ViewData → Int → Int) (v : ViewData) :
    ∀ (ents : List (Nat × Int × Nat)) (it : Opaque3dItem),
      it ∈ queueEntitiesForView drawCustom msaaSamples sp meshes rf v ents →
      ∃ q, q ∈ ents ∧ ∃ m, meshes q.2.2 = some m ∧
        it = ⟨q.1, sp ⟨msaaSamples, v.hdr, m.topology⟩ m.layout, drawCustom,
              rf v q.2.1⟩ := by
  intro ents
  induction ents with
  | nil => intro it hit; exact absurd hit (List.not_mem_nil it)
  | cons a rest ih =>
    intro it hit
    obtain ⟨e, tf, mh⟩ := a
    cases hm : meshes mh with
    | some m =>
      simp only [queueEntitiesForView, hm, List.mem_cons] at hit
      rcases hit with hit | hit
      · exact ⟨(e, tf, mh), List.mem_cons_self _ _, m, hm, hit⟩
      · rcases ih it hit with ⟨q2, hq2, m2, hm2, heq⟩
        exact ⟨q2, List.mem_cons_of_mem _ hq2, m2, hm2, heq⟩
    | none =>
      simp only [queueEntitiesForView, hm] at hit
      rcases ih it hit with ⟨q2, hq2, m2, hm2, heq⟩
      exact ⟨q2, List.mem_cons_of_mem _ hq2, m2, hm2, heq⟩

theorem queueEntitiesForView_countP_zero (drawCustom msaaSamples : Nat)
    (sp : MeshKey → Nat → Nat) (meshes : Nat → Option GrassMesh)
    (rf : ViewData → Int → Int) (v : ViewData) (x : Nat)
    (ents : List (Nat × Int × Nat))
    (hx : x ∉ ents.map (fun q => q.1)) :
    List.countP (fun it => it.entity == x)
      (queueEntitiesForView drawCustom msaaSamples sp meshes rf v ents) = 0 := by
  rw [List.countP_eq_zero]
  intro it hit
  rcases queueEntitiesForView_mem drawCustom msaaSamples sp meshes rf v ents
    it hit with ⟨q2, hq2, m2, _, heq⟩
  rw [heq]
  simp only [beq_iff_eq]
  intro habs
  exact hx (habs ▸ List.mem_map_of_mem _ hq2)

theorem queueEntitiesForView_countP (drawCustom msaaSamples : Nat)
    (sp : MeshKey → Nat → Nat) (meshes : Nat → Option GrassMesh)
    (rf : ViewData → Int → Int) (v : ViewData) :
    ∀ (ents : List (Nat × Int × Nat)),
      (ents.map (fun q => q.1)).Nodup →
      ∀ q ∈ ents,
        List.countP (fun it => it.entity == q.1)
          (queueEntitiesForView drawCustom msaaSamples sp meshes rf v ents)
          = if (meshes q.2.2).isSome then 1 else 0 := by
  intro ents
  induction ents with
  | nil => intro _ q hq; exact absurd hq (List.not_mem_nil q)
  | cons a rest ih =>
    intro hnd q hq
    rw [List.map_cons, List.nodup_cons] at hnd
    obtain ⟨hna, hndr⟩ := hnd
    obtain ⟨e, tf, mh⟩ := a
    rcases List.mem_cons.mp hq with hqa | hqr
    · subst hqa
      have hzero := queueEntitiesForView_countP_zero drawCustom msaaSamples
        sp meshes rf v e rest hna
      cases hm : meshes mh with
      | some m =>
        simp only [queueEntitiesForView, hm, List.countP_cons, hzero]
        simp
      | none =>
        simp only [queueEntitiesForView, hm, hzero]
        simp [hm]
    · have hqne : ¬ (q.1 = e) := by
        intro hh
        apply hna
        rw [← hh]
        exact List.mem_map.mpr ⟨q, hqr, rfl⟩
      have hii := ih hndr q hqr
      cases hm : meshes mh with
      | some m =>
        simp only [queueEntitiesForView, hm, List.countP_cons, hii]
        have : (e == q.1) = false := by
          simp only [beq_eq_false_iff_ne, ne_eq]
          intro hh
          exact hqne hh.symm
        simp [this]
      | none =>
        simp only [queueEntitiesForView, hm]
        exact hii

/-- C9: for every view with an opaque phase, queue_grass_buffers
registers for that view exactly one draw command per grass entity with a
resolved mesh, carrying the pipeline specialized over the combined
msaa/hdr/topology key and the mesh layout, the fixed draw-function
identifier and the view-space distance of the entity transform, while
entities with unresolved meshes are skipped. -/
theorem C9_draw_registration (drawCustom msaaSamples : Nat)
    (sp : MeshKey → Nat → Nat) (meshes : Nat → Option GrassMesh)
    (rf : ViewData → Int → Int) (entities : List (Nat × Int × Nat))
    (views : List ViewData)
    (hnd : (entities.map (fun q => q.1)).Nodup) :
    ∀ v ∈ views,
      (v, queueEntitiesForView drawCustom msaaSamples sp meshes rf v entities)
        ∈ queue_grass_buffers drawCustom msaaSamples sp meshes rf entities views ∧
      (∀ q ∈ entities,
        List.countP (fun it => it.entity == q.1)
          (queueEntitiesForView drawCustom msaaSamples sp meshes rf v entities)
          = if (meshes q.2.2).isSome then 1 else 0) ∧
      (∀ it ∈ queueEntitiesForView drawCustom msaaSamples sp meshes rf v entities,
        ∃ q, q ∈ entities ∧ ∃ m, meshes q.2.2 = some m ∧
          it = ⟨q.1, sp ⟨msaaSamples, v.hdr, m.topology⟩ m.layout, drawCustom,
                rf v q.2.1⟩) := by
  intro v hv
  refine ⟨?_, ?_, ?_⟩
  · exact List.mem_map.mpr ⟨v, hv, rfl⟩
  · exact queueEntitiesForView_countP drawCustom msaaSamples sp meshes rf v
      entities hnd
  · exact queueEntitiesForView_mem drawCustom msaaSamples sp meshes rf v
      entities

/-- C9 witness: a concrete view and two entities, one with a resolved
mesh and one without: exactly one item is pushed, for the resolved
one. -/
theorem C9_draw_registration_witness :
    ((⟨0, false⟩ : ViewData), queueEntitiesForView 11 4 (fun _ _ => 21)
        (fun mh => if mh = 5 then some ⟨1, 2⟩ else none)
        (fun _ tf => tf) ⟨0, false⟩ [(1, 30, 5), (2, 40, 6)])
      ∈ queue_grass_buffers 11 4 (fun _ _ => 21)
        (fun mh => if mh = 5 then some ⟨1, 2⟩ else none)
        (fun _ tf => tf) [(1, 30, 5), (2, 40, 6)] [⟨0, false⟩] ∧
    (∀ q ∈ [((1 : Nat), (30 : Int), (5 : Nat)), (2, 40, 6)],
      List.countP (fun it => it.entity == q.1)
        (queueEntitiesForView 11 4 (fun _ _ => 21)
          (fun mh => if mh = 5 then some ⟨1, 2⟩ else none)
          (fun _ tf => tf) ⟨0, false⟩ [(1, 30, 5), (2, 40, 6)])
        = if ((fun mh => if mh = 5 then some (GrassMesh.mk 1 2) else none) q.2.2).isSome
          then 1 else 0) ∧
    (∀ it ∈ queueEntitiesForView 11 4 (fun _ _ => 21)
        (fun mh => if mh = 5 then some ⟨1, 2⟩ else none)
        (fun _ tf => tf) ⟨0, false⟩ [(1, 30, 5), (2, 40, 6)],
      ∃ q, q ∈ [((1 : Nat), (30 : Int), (5 : Nat)), (2, 40, 6)] ∧
        ∃ m, (fun mh => if mh = 5 then some (GrassMesh.mk 1 2) else none) q.2.2
            = some m ∧
          it = ⟨q.1, (fun _ _ => (21 : Nat)) (MeshKey.mk 4 (ViewData.mk 0 false).hdr m.topology) m.layout, 11,
                (fun _ tf => tf) (ViewData.mk 0 false) q.2.1⟩) :=
  C9_draw_registration 11 4 (fun _ _ => 21)
    (fun mh => if mh = 5 then some ⟨1, 2⟩ else none)
    (fun _ tf => tf) [(1, 30, 5), (2, 40, 6)] [⟨0, false⟩]
    (by decide) ⟨0, false⟩ (List.mem_singleton.mpr rfl)

end Warbler
